import Mathlib

/-!
Verification model of the checkpoint-commit pipeline implemented in
`crates/sui-indexer/src/handlers/committer.rs`.

The committer consumes chunks of fully-indexed checkpoints, accumulates the
per-checkpoint category collections into one commit batch, persists the bulk
categories concurrently (Phase 1), then persists the checkpoint metadata
(Phase 2), and finally publishes the last committed sequence number on a
watch channel.

The embedding below mirrors that code:

* `CheckpointDataToCommit` carries the eight per-checkpoint collections; the
  element types of the collections are opaque type parameters, because the
  committer never inspects them (the concrete Rust types live outside this
  subsystem).
* The per-checkpoint `display_updates` map and the accumulated
  `display_updates_batch` BTreeMap are modelled as association lists with the
  standard overwrite-on-insert map semantics (`btreeInsert` / `btreeExtend`);
  only insertion and lookup semantics are relevant to the committer.
* The storage collaborator is abstracted as an oracle `store : PersistCall →
  Bool` saying whether each category persistence call succeeds; the fallible
  asynchronous calls and the panics raised by `expect` are reflected in the
  `CommitControl` record (`trace` of issued calls, `watermark_sent`, `fatal`,
  `unwrap_panicked`).
* `start_tx_checkpoint_commit_task` runs the commit loop over a list of
  drained chunks (the output of `ready_chunks`), stopping when a commit cycle
  panics, and produces the list of per-iteration events.
-/

namespace Committer

/-- Checkpoint metadata record carried by a `CheckpointDataToCommit`
(`checkpoint.sequence_number` in the source); the remaining summary fields are
never inspected by the committer and are abstracted as an opaque payload. -/
structure Checkpoint (Sm : Type) where
  sequence_number : Nat
  summary : Sm
  deriving DecidableEq

/-- One fully-indexed checkpoint handed to the committer
(`CheckpointDataToCommit` in the source). The element types of the category
collections are opaque type parameters: the committer moves them around
without inspecting them. The per-checkpoint `display_updates` map is given as
its list of key-value entries in iteration order. -/
structure CheckpointDataToCommit
    (Sm Tx Ev Ti Dk Dv Oc Pk Ep : Type) where
  checkpoint : Checkpoint Sm
  transactions : List Tx
  events : List Ev
  tx_indices : List Ti
  display_updates : List (Dk × Dv)
  object_changes : Oc
  packages : List Pk
  epoch : Option Ep
  deriving DecidableEq

variable {Sm Tx Ev Ti Dk Dv Oc Pk Ep : Type}

/-- Model of `BTreeMap` insertion: an association list with at most one entry
per key, where inserting overwrites the entry for an existing key and
otherwise appends the new entry. -/
def btreeInsert [DecidableEq Dk] : List (Dk × Dv) → Dk × Dv → List (Dk × Dv)
  | [], kv => [kv]
  | (k, v) :: rest, kv =>
      if k = kv.1 then (k, kv.2) :: rest else (k, v) :: btreeInsert rest kv

/-- Model of `BTreeMap::extend`: insert every entry of `l` in order. -/
def btreeExtend [DecidableEq Dk] (m : List (Dk × Dv)) (l : List (Dk × Dv)) :
    List (Dk × Dv) :=
  l.foldl btreeInsert m

/-- Model of `BTreeMap` lookup on the association-list representation. -/
def btreeLookup [DecidableEq Dk] (m : List (Dk × Dv)) (k : Dk) : Option Dv :=
  (m.find? fun p => decide (p.1 = k)).map fun p => p.2

/-- The value paired with the last occurrence of key `k` in the entry list
`l`, if any. -/
def lastValueFor [DecidableEq Dk] (k : Dk) (l : List (Dk × Dv)) : Option Dv :=
  (l.reverse.find? fun p => decide (p.1 = k)).map fun p => p.2

/-- The eight mutable accumulator collections built up by the `for` loop of
`commit_checkpoints` (source lines 74-104). -/
structure CommitAcc (Sm Tx Ev Ti Dk Dv Oc Pk Ep : Type) where
  checkpoint_batch : List (Checkpoint Sm)
  tx_batch : List (List Tx)
  events_batch : List (List Ev)
  tx_indices_batch : List (List Ti)
  display_updates_batch : List (Dk × Dv)
  object_changes_batch : List Oc
  packages_batch : List (List Pk)
  epochs_batch : List Ep
  deriving DecidableEq

/-- The accumulator's initial state: all collections empty. -/
def emptyAcc : CommitAcc Sm Tx Ev Ti Dk Dv Oc Pk Ep :=
  ⟨[], [], [], [], [], [], [], []⟩

/-- One iteration of the accumulation loop body (source lines 83-104): push
the per-checkpoint collections, extend the display map, and push the epoch
record when present. -/
def accumulateStep [DecidableEq Dk]
    (acc : CommitAcc Sm Tx Ev Ti Dk Dv Oc Pk Ep)
    (c : CheckpointDataToCommit Sm Tx Ev Ti Dk Dv Oc Pk Ep) :
    CommitAcc Sm Tx Ev Ti Dk Dv Oc Pk Ep where
  checkpoint_batch := acc.checkpoint_batch ++ [c.checkpoint]
  tx_batch := acc.tx_batch ++ [c.transactions]
  events_batch := acc.events_batch ++ [c.events]
  tx_indices_batch := acc.tx_indices_batch ++ [c.tx_indices]
  display_updates_batch := btreeExtend acc.display_updates_batch c.display_updates
  object_changes_batch := acc.object_changes_batch ++ [c.object_changes]
  packages_batch := acc.packages_batch ++ [c.packages]
  epochs_batch := acc.epochs_batch ++ c.epoch.toList

/-- The accumulation loop of `commit_checkpoints` over the whole input
batch. -/
def accumulate [DecidableEq Dk]
    (indexed_checkpoint_batch :
      List (CheckpointDataToCommit Sm Tx Ev Ti Dk Dv Oc Pk Ep)) :
    CommitAcc Sm Tx Ev Ti Dk Dv Oc Pk Ep :=
  indexed_checkpoint_batch.foldl accumulateStep emptyAcc

/-- The persistence calls issued against the storage collaborator, one per
category. -/
inductive PersistCall where
  | transactions
  | tx_indices
  | events
  | displays
  | packages
  | objects
  | epoch
  | checkpoints
  deriving DecidableEq

/-- The seven Phase-1 calls, in the order they are passed to `join_all`
(source lines 120-128). -/
def phase1Calls : List PersistCall :=
  [PersistCall.transactions, PersistCall.tx_indices, PersistCall.events,
   PersistCall.displays, PersistCall.packages, PersistCall.objects,
   PersistCall.epoch]

/-- Control-flow outcome of one `commit_checkpoints` cycle: which persistence
calls were issued (in completion order), whether the batch-boundary unwraps
panicked, whether Phase 2 was invoked, the value published on the commit
notifier, whether the cycle ended in a panic (`expect` on a persistence
error, unwrap of an empty batch, or a closed watch channel is modelled as
`fatal`), and whether the two ratio metrics on the success path were
observed. -/
structure CommitControl where
  trace : List PersistCall
  first_seq : Option Nat
  last_seq : Option Nat
  unwrap_panicked : Bool
  phase2_invoked : Bool
  watermark_sent : Option Nat
  fatal : Bool
  metric1000_observed : Bool
  txpc_observed : Bool
  txpc_denominator : Nat
  deriving DecidableEq

/-- The control flow of `commit_checkpoints` as a function of the store
oracle and the first/last sequence numbers of the accumulated
`checkpoint_batch`:

* if the batch was empty, the `first()/last().unwrap()` at source lines
  106-107 panic before any persistence call is issued;
* otherwise the seven Phase-1 calls are issued and joined; if any fails the
  `expect` at line 138 panics and Phase 2 is never invoked;
* otherwise `persist_checkpoints` is invoked; if it fails the `expect` at
  line 150 panics and the watermark is not sent;
* otherwise the last sequence number is sent on the commit notifier and the
  success-path metrics (lines 173-180) are observed, the
  transactions-per-checkpoint metric with denominator
  `last_checkpoint_seq - first_checkpoint_seq + 1`. -/
def commitControl (store : PersistCall → Bool)
    (first_cp last_cp : Option Nat) : CommitControl :=
  match first_cp, last_cp with
  | some fs, some ls =>
    if phase1Calls.all store then
      if store PersistCall.checkpoints then
        { trace := phase1Calls ++ [PersistCall.checkpoints]
          first_seq := some fs
          last_seq := some ls
          unwrap_panicked := false
          phase2_invoked := true
          watermark_sent := some ls
          fatal := false
          metric1000_observed := true
          txpc_observed := true
          txpc_denominator := ls - fs + 1 }
      else
        { trace := phase1Calls ++ [PersistCall.checkpoints]
          first_seq := some fs
          last_seq := some ls
          unwrap_panicked := false
          phase2_invoked := true
          watermark_sent := none
          fatal := true
          metric1000_observed := false
          txpc_observed := false
          txpc_denominator := ls - fs + 1 }
    else
      { trace := phase1Calls
        first_seq := some fs
        last_seq := some ls
        unwrap_panicked := false
        phase2_invoked := false
        watermark_sent := none
        fatal := true
        metric1000_observed := false
        txpc_observed := false
        txpc_denominator := ls - fs + 1 }
  | _, _ =>
    { trace := []
      first_seq := none
      last_seq := none
      unwrap_panicked := true
      phase2_invoked := false
      watermark_sent := none
      fatal := true
      metric1000_observed := false
      txpc_observed := false
      txpc_denominator := 0 }

/-- Complete observable outcome of one `commit_checkpoints` cycle: the
collections handed to each category persistence call, the derived counts, and
the control flow. `metric1000_denominator` is the `tx_count` denominator of
the thousand-transaction latency metric at source lines 178-180. -/
structure CommitOutcome (Sm Tx Ev Ti Dk Dv Oc Pk Ep : Type) where
  trace : List PersistCall
  tx_arg : List Tx
  tx_indices_arg : List Ti
  events_arg : List Ev
  displays_arg : List (Dk × Dv)
  packages_arg : List Pk
  objects_arg : List Oc
  epochs_arg : List Ep
  checkpoints_arg : List (Checkpoint Sm)
  tx_count : Nat
  first_seq : Option Nat
  last_seq : Option Nat
  unwrap_panicked : Bool
  phase2_invoked : Bool
  watermark_sent : Option Nat
  fatal : Bool
  metric1000_observed : Bool
  metric1000_denominator : Nat
  txpc_observed : Bool
  txpc_denominator : Nat
  deriving DecidableEq

/-- One commit cycle (`commit_checkpoints`, source lines 66-181): accumulate
the batch, flatten the per-checkpoint collections into the per-category
arguments (lines 110-113), and run the two-phase persistence protocol and
watermark publication described by `commitControl`. -/
def commit_checkpoints [DecidableEq Dk] (store : PersistCall → Bool)
    (indexed_checkpoint_batch :
      List (CheckpointDataToCommit Sm Tx Ev Ti Dk Dv Oc Pk Ep)) :
    CommitOutcome Sm Tx Ev Ti Dk Dv Oc Pk Ep :=
  let acc := accumulate indexed_checkpoint_batch
  let tx_batch := acc.tx_batch.flatten
  let ctl := commitControl store
    (acc.checkpoint_batch.head?.map fun c => c.sequence_number)
    (acc.checkpoint_batch.getLast?.map fun c => c.sequence_number)
  { trace := ctl.trace
    tx_arg := tx_batch
    tx_indices_arg := acc.tx_indices_batch.flatten
    events_arg := acc.events_batch.flatten
    displays_arg := acc.display_updates_batch
    packages_arg := acc.packages_batch.flatten
    objects_arg := acc.object_changes_batch
    epochs_arg := acc.epochs_batch
    checkpoints_arg := acc.checkpoint_batch
    tx_count := tx_batch.length
    first_seq := ctl.first_seq
    last_seq := ctl.last_seq
    unwrap_panicked := ctl.unwrap_panicked
    phase2_invoked := ctl.phase2_invoked
    watermark_sent := ctl.watermark_sent
    fatal := ctl.fatal
    metric1000_observed := ctl.metric1000_observed
    metric1000_denominator := tx_batch.length
    txpc_observed := ctl.txpc_observed
    txpc_denominator := ctl.txpc_denominator }

/-- One iteration event of the commit loop: an empty drained chunk was
skipped (source lines 46-48), a chunk was logged and discarded because
`skip_db_commit` was set (lines 49-56), or `commit_checkpoints` was invoked
on the chunk (line 57). -/
inductive LoopEvent (Sm Tx Ev Ti Dk Dv Oc Pk Ep : Type) where
  | skipped_empty : LoopEvent Sm Tx Ev Ti Dk Dv Oc Pk Ep
  | skipped_db_commit (first_seq last_seq : Option Nat) :
      LoopEvent Sm Tx Ev Ti Dk Dv Oc Pk Ep
  | committed
      (batch : List (CheckpointDataToCommit Sm Tx Ev Ti Dk Dv Oc Pk Ep))
      (outcome : CommitOutcome Sm Tx Ev Ti Dk Dv Oc Pk Ep) :
      LoopEvent Sm Tx Ev Ti Dk Dv Oc Pk Ep
  deriving DecidableEq

/-- The commit loop (`start_tx_checkpoint_commit_task`, source lines 43-58)
over the list of chunks drained from the stream: empty chunks are skipped,
chunks are logged and discarded when `skip_db_commit` is set, and otherwise
`commit_checkpoints` runs; a fatal commit cycle panics the task, so no
further chunk is processed. -/
def start_tx_checkpoint_commit_task [DecidableEq Dk] (skip_db_commit : Bool)
    (store : PersistCall → Bool) :
    List (List (CheckpointDataToCommit Sm Tx Ev Ti Dk Dv Oc Pk Ep)) →
      List (LoopEvent Sm Tx Ev Ti Dk Dv Oc Pk Ep)
  | [] => []
  | chunk :: rest =>
    if chunk.isEmpty then
      LoopEvent.skipped_empty ::
        start_tx_checkpoint_commit_task skip_db_commit store rest
    else if skip_db_commit then
      LoopEvent.skipped_db_commit
          (chunk.head?.map fun c => c.checkpoint.sequence_number)
          (chunk.getLast?.map fun c => c.checkpoint.sequence_number) ::
        start_tx_checkpoint_commit_task skip_db_commit store rest
    else
      let o := commit_checkpoints store chunk
      if o.fatal then [LoopEvent.committed chunk o]
      else
        LoopEvent.committed chunk o ::
          start_tx_checkpoint_commit_task skip_db_commit store rest

/-- The sequence numbers published on the commit notifier over a run of the
loop, in order. -/
def watermarkSends (events : List (LoopEvent Sm Tx Ev Ti Dk Dv Oc Pk Ep)) :
    List Nat :=
  events.filterMap fun e =>
    match e with
    | LoopEvent.committed _ o => o.watermark_sent
    | _ => none

/-- All persistence calls issued against the storage collaborator over a run
of the loop, in order. -/
def persistedCalls (events : List (LoopEvent Sm Tx Ev Ti Dk Dv Oc Pk Ep)) :
    List PersistCall :=
  (events.map fun e =>
    match e with
    | LoopEvent.committed _ o => o.trace
    | _ => ([] : List PersistCall)).flatten

/-- The batches on which the loop invoked `commit_checkpoints`, in order. -/
def committedBatches (events : List (LoopEvent Sm Tx Ev Ti Dk Dv Oc Pk Ep)) :
    List (List (CheckpointDataToCommit Sm Tx Ev Ti Dk Dv Oc Pk Ep)) :=
  events.filterMap fun e =>
    match e with
    | LoopEvent.committed b _ => some b
    | _ => none

/-- The checkpoint sequence numbers of a batch, in input order. -/
def seqsOf (batch : List (CheckpointDataToCommit Sm Tx Ev Ti Dk Dv Oc Pk Ep)) :
    List Nat :=
  batch.map fun c => c.checkpoint.sequence_number

/-- A list of sequence numbers is consecutive with no gaps when each entry is
the successor of the previous one. -/
def isConsecutive : List Nat → Bool
  | [] => true
  | [_] => true
  | a :: b :: t => b == a + 1 && isConsecutive (b :: t)

/-! ### Characterization of the accumulation loop -/

theorem foldl_accumulateStep_checkpoint [DecidableEq Dk]
    (acc : CommitAcc Sm Tx Ev Ti Dk Dv Oc Pk Ep)
    (batch : List (CheckpointDataToCommit Sm Tx Ev Ti Dk Dv Oc Pk Ep)) :
    (batch.foldl accumulateStep acc).checkpoint_batch
      = acc.checkpoint_batch ++ batch.map fun c => c.checkpoint := by
  induction batch generalizing acc with
  | nil => simp
  | cons c rest ih => simp [accumulateStep, ih]

theorem foldl_accumulateStep_tx [DecidableEq Dk]
    (acc : CommitAcc Sm Tx Ev Ti Dk Dv Oc Pk Ep)
    (batch : List (CheckpointDataToCommit Sm Tx Ev Ti Dk Dv Oc Pk Ep)) :
    (batch.foldl accumulateStep acc).tx_batch
      = acc.tx_batch ++ batch.map fun c => c.transactions := by
  induction batch generalizing acc with
  | nil => simp
  | cons c rest ih => simp [accumulateStep, ih]

theorem foldl_accumulateStep_events [DecidableEq Dk]
    (acc : CommitAcc Sm Tx Ev Ti Dk Dv Oc Pk Ep)
    (batch : List (CheckpointDataToCommit Sm Tx Ev Ti Dk Dv Oc Pk Ep)) :
    (batch.foldl accumulateStep acc).events_batch
      = acc.events_batch ++ batch.map fun c => c.events := by
  induction batch generalizing acc with
  | nil => simp
  | cons c rest ih => simp [accumulateStep, ih]

theorem foldl_accumulateStep_tx_indices [DecidableEq Dk]
    (acc : CommitAcc Sm Tx Ev Ti Dk Dv Oc Pk Ep)
    (batch : List (CheckpointDataToCommit Sm Tx Ev Ti Dk Dv Oc Pk Ep)) :
    (batch.foldl accumulateStep acc).tx_indices_batch
      = acc.tx_indices_batch ++ batch.map fun c => c.tx_indices := by
  induction batch generalizing acc with
  | nil => simp
  | cons c rest ih => simp [accumulateStep, ih]

theorem foldl_accumulateStep_objects [DecidableEq Dk]
    (acc : CommitAcc Sm Tx Ev Ti Dk Dv Oc Pk Ep)
    (batch : List (CheckpointDataToCommit Sm Tx Ev Ti Dk Dv Oc Pk Ep)) :
    (batch.foldl accumulateStep acc).object_changes_batch
      = acc.object_changes_batch ++ batch.map fun c => c.object_changes := by
  induction batch generalizing acc with
  | nil => simp
  | cons c rest ih => simp [accumulateStep, ih]

theorem foldl_accumulateStep_packages [DecidableEq Dk]
    (acc : CommitAcc Sm Tx Ev Ti Dk Dv Oc Pk Ep)
    (batch : List (CheckpointDataToCommit Sm Tx Ev Ti Dk Dv Oc Pk Ep)) :
    (batch.foldl accumulateStep acc).packages_batch
      = acc.packages_batch ++ batch.map fun c => c.packages := by
  induction batch generalizing acc with
  | nil => simp
  | cons c rest ih => simp [accumulateStep, ih]

theorem foldl_accumulateStep_epochs [DecidableEq Dk]
    (acc : CommitAcc Sm Tx Ev Ti Dk Dv Oc Pk Ep)
    (batch : List (CheckpointDataToCommit Sm Tx Ev Ti Dk Dv Oc Pk Ep)) :
    (batch.foldl accumulateStep acc).epochs_batch
      = acc.epochs_batch ++ batch.filterMap fun c => c.epoch := by
  induction batch generalizing acc with
  | nil => simp
  | cons c rest ih =>
    rw [List.foldl_cons, ih, List.filterMap_cons]
    cases h : c.epoch <;> simp [accumulateStep, h]

theorem btreeExtend_append [DecidableEq Dk] (m : List (Dk × Dv))
    (l₁ l₂ : List (Dk × Dv)) :
    btreeExtend m (l₁ ++ l₂) = btreeExtend (btreeExtend m l₁) l₂ := by
  simp [btreeExtend, List.foldl_append]

theorem foldl_accumulateStep_displays [DecidableEq Dk]
    (acc : CommitAcc Sm Tx Ev Ti Dk Dv Oc Pk Ep)
    (batch : List (CheckpointDataToCommit Sm Tx Ev Ti Dk Dv Oc Pk Ep)) :
    (batch.foldl accumulateStep acc).display_updates_batch
      = btreeExtend acc.display_updates_batch
          ((batch.map fun c => c.display_updates).flatten) := by
  induction batch generalizing acc with
  | nil => simp [btreeExtend]
  | cons c rest ih =>
    rw [List.foldl_cons, ih, List.map_cons, List.flatten_cons, btreeExtend_append]
    rfl

theorem accumulate_checkpoint_batch [DecidableEq Dk]
    (batch : List (CheckpointDataToCommit Sm Tx Ev Ti Dk Dv Oc Pk Ep)) :
    (accumulate batch).checkpoint_batch = batch.map fun c => c.checkpoint := by
  simp [accumulate, foldl_accumulateStep_checkpoint, emptyAcc]

theorem accumulate_tx_batch [DecidableEq Dk]
    (batch : List (CheckpointDataToCommit Sm Tx Ev Ti Dk Dv Oc Pk Ep)) :
    (accumulate batch).tx_batch = batch.map fun c => c.transactions := by
  simp [accumulate, foldl_accumulateStep_tx, emptyAcc]

theorem accumulate_events_batch [DecidableEq Dk]
    (batch : List (CheckpointDataToCommit Sm Tx Ev Ti Dk Dv Oc Pk Ep)) :
    (accumulate batch).events_batch = batch.map fun c => c.events := by
  simp [accumulate, foldl_accumulateStep_events, emptyAcc]

theorem accumulate_tx_indices_batch [DecidableEq Dk]
    (batch : List (CheckpointDataToCommit Sm Tx Ev Ti Dk Dv Oc Pk Ep)) :
    (accumulate batch).tx_indices_batch = batch.map fun c => c.tx_indices := by
  simp [accumulate, foldl_accumulateStep_tx_indices, emptyAcc]

theorem accumulate_object_changes_batch [DecidableEq Dk]
    (batch : List (CheckpointDataToCommit Sm Tx Ev Ti Dk Dv Oc Pk Ep)) :
    (accumulate batch).object_changes_batch = batch.map fun c => c.object_changes := by
  simp [accumulate, foldl_accumulateStep_objects, emptyAcc]

theorem accumulate_packages_batch [DecidableEq Dk]
    (batch : List (CheckpointDataToCommit Sm Tx Ev Ti Dk Dv Oc Pk Ep)) :
    (accumulate batch).packages_batch = batch.map fun c => c.packages := by
  simp [accumulate, foldl_accumulateStep_packages, emptyAcc]

theorem accumulate_epochs_batch [DecidableEq Dk]
    (batch : List (CheckpointDataToCommit Sm Tx Ev Ti Dk Dv Oc Pk Ep)) :
    (accumulate batch).epochs_batch = batch.filterMap fun c => c.epoch := by
  simp [accumulate, foldl_accumulateStep_epochs, emptyAcc]

theorem accumulate_display_updates_batch [DecidableEq Dk]
    (batch : List (CheckpointDataToCommit Sm Tx Ev Ti Dk Dv Oc Pk Ep)) :
    (accumulate batch).display_updates_batch
      = btreeExtend [] ((batch.map fun c => c.display_updates).flatten) := by
  simp [accumulate, foldl_accumulateStep_displays, emptyAcc]

/-! ### Lookup semantics of the display-map merge -/

theorem btreeLookup_insert [DecidableEq Dk] (m : List (Dk × Dv))
    (kv : Dk × Dv) (k : Dk) :
    btreeLookup (btreeInsert m kv) k
      = if kv.1 = k then some kv.2 else btreeLookup m k := by
  obtain ⟨kk, kvv⟩ := kv
  induction m with
  | nil =>
    by_cases h : kk = k <;> simp [btreeInsert, btreeLookup, List.find?, h]
  | cons a m ih =>
    obtain ⟨ak, av⟩ := a
    by_cases h1 : ak = kk
    · subst h1
      by_cases h2 : ak = k
      · subst h2
        simp [btreeInsert, btreeLookup, List.find?_cons]
      · simp [btreeInsert, btreeLookup, List.find?_cons, h2]
    · by_cases ha : ak = k
      · subst ha
        have h2 : ¬ kk = ak := fun hk => h1 hk.symm
        simp [btreeInsert, btreeLookup, List.find?_cons, h1, h2]
      · simp only [btreeLookup] at ih
        simp [btreeInsert, btreeLookup, List.find?_cons, h1, ha, ih]

theorem lastValueFor_cons [DecidableEq Dk] (k : Dk) (kv : Dk × Dv)
    (l : List (Dk × Dv)) :
    lastValueFor k (kv :: l)
      = (lastValueFor k l).or (if kv.1 = k then some kv.2 else none) := by
  simp only [lastValueFor, List.reverse_cons, List.find?_append]
  cases h : l.reverse.find? fun p => decide (p.1 = k) with
  | some p => simp [h]
  | none => by_cases hk : kv.1 = k <;> simp [h, List.find?, hk]

theorem btreeLookup_extend [DecidableEq Dk] (m : List (Dk × Dv))
    (l : List (Dk × Dv)) (k : Dk) :
    btreeLookup (btreeExtend m l) k = (lastValueFor k l).or (btreeLookup m k) := by
  induction l generalizing m with
  | nil => simp [btreeExtend, lastValueFor]
  | cons kv l ih =>
    have hstep : btreeExtend m (kv :: l) = btreeExtend (btreeInsert m kv) l := rfl
    rw [hstep, ih, btreeLookup_insert, lastValueFor_cons, Option.or_assoc]
    congr 1
    by_cases h : kv.1 = k <;> simp [h]

/-- Claim C6: the display-metadata merge is last-writer-wins: for every batch, the
merged display-updates mapping handed to `persist_displays` maps each key to
the value of the last entry carrying that key in the concatenation, in input
order, of the per-checkpoint display-update entries; later entries overwrite
earlier entries sharing the same key. -/
theorem display_merge_last_writer_wins [DecidableEq Dk]
    (store : PersistCall → Bool)
    (batch : List (CheckpointDataToCommit Sm Tx Ev Ti Dk Dv Oc Pk Ep))
    (k : Dk) :
    btreeLookup (commit_checkpoints store batch).displays_arg k
      = lastValueFor k ((batch.map fun c => c.display_updates).flatten) := by
  show btreeLookup (accumulate batch).display_updates_batch k = _
  rw [accumulate_display_updates_batch, btreeLookup_extend]
  simp [btreeLookup]

/-- Claim C5: order-preserving accumulation: each flattened category collection
handed to the storage collaborator is exactly the concatenation of the
corresponding per-checkpoint collections in input order, so all elements
belonging to an earlier checkpoint precede all elements belonging to a later
one within each category; object changes, epoch records, and checkpoint
metadata likewise preserve input order. -/
theorem commit_batch_order_preserving [DecidableEq Dk]
    (store : PersistCall → Bool)
    (batch : List (CheckpointDataToCommit Sm Tx Ev Ti Dk Dv Oc Pk Ep)) :
    (commit_checkpoints store batch).tx_arg
        = (batch.map fun c => c.transactions).flatten ∧
    (commit_checkpoints store batch).tx_indices_arg
        = (batch.map fun c => c.tx_indices).flatten ∧
    (commit_checkpoints store batch).events_arg
        = (batch.map fun c => c.events).flatten ∧
    (commit_checkpoints store batch).packages_arg
        = (batch.map fun c => c.packages).flatten ∧
    (commit_checkpoints store batch).objects_arg
        = (batch.map fun c => c.object_changes) ∧
    (commit_checkpoints store batch).epochs_arg
        = (batch.filterMap fun c => c.epoch) ∧
    (commit_checkpoints store batch).checkpoints_arg
        = (batch.map fun c => c.checkpoint) := by
  refine ⟨?_, ?_, ?_, ?_, ?_, ?_, ?_⟩ <;>
    simp [commit_checkpoints, accumulate_tx_batch, accumulate_tx_indices_batch,
      accumulate_events_batch, accumulate_packages_batch,
      accumulate_object_changes_batch, accumulate_epochs_batch,
      accumulate_checkpoint_batch]

/-! ### Control flow of one commit cycle -/

/-- The control outcome of a cycle on `batch`, phrased over the batch's own
sequence-number list. -/
def ctlOf (store : PersistCall → Bool)
    (batch : List (CheckpointDataToCommit Sm Tx Ev Ti Dk Dv Oc Pk Ep)) :
    CommitControl :=
  commitControl store (seqsOf batch).head? (seqsOf batch).getLast?

theorem commit_checkpoints_eq [DecidableEq Dk] (store : PersistCall → Bool)
    (batch : List (CheckpointDataToCommit Sm Tx Ev Ti Dk Dv Oc Pk Ep)) :
    commit_checkpoints store batch =
      { trace := (ctlOf store batch).trace
        tx_arg := (batch.map fun c => c.transactions).flatten
        tx_indices_arg := (batch.map fun c => c.tx_indices).flatten
        events_arg := (batch.map fun c => c.events).flatten
        displays_arg := btreeExtend [] ((batch.map fun c => c.display_updates).flatten)
        packages_arg := (batch.map fun c => c.packages).flatten
        objects_arg := batch.map fun c => c.object_changes
        epochs_arg := batch.filterMap fun c => c.epoch
        checkpoints_arg := batch.map fun c => c.checkpoint
        tx_count := ((batch.map fun c => c.transactions).flatten).length
        first_seq := (ctlOf store batch).first_seq
        last_seq := (ctlOf store batch).last_seq
        unwrap_panicked := (ctlOf store batch).unwrap_panicked
        phase2_invoked := (ctlOf store batch).phase2_invoked
        watermark_sent := (ctlOf store batch).watermark_sent
        fatal := (ctlOf store batch).fatal
        metric1000_observed := (ctlOf store batch).metric1000_observed
        metric1000_denominator := ((batch.map fun c => c.transactions).flatten).length
        txpc_observed := (ctlOf store batch).txpc_observed
        txpc_denominator := (ctlOf store batch).txpc_denominator } := by
  simp only [commit_checkpoints, ctlOf, accumulate_tx_batch,
    accumulate_tx_indices_batch, accumulate_events_batch,
    accumulate_packages_batch, accumulate_object_changes_batch,
    accumulate_epochs_batch, accumulate_checkpoint_batch,
    accumulate_display_updates_batch, seqsOf, List.head?_map,
    List.getLast?_map, Option.map_map, Function.comp]
  rfl

theorem seqsOf_ne_nil (batch : List (CheckpointDataToCommit Sm Tx Ev Ti Dk Dv Oc Pk Ep))
    (hne : batch ≠ []) : seqsOf batch ≠ [] := by
  simp [seqsOf, hne]

theorem seqsOf_head?_some (batch : List (CheckpointDataToCommit Sm Tx Ev Ti Dk Dv Oc Pk Ep))
    (hne : batch ≠ []) : ∃ fs, (seqsOf batch).head? = some fs :=
  Option.isSome_iff_exists.mp (List.head?_isSome.mpr (seqsOf_ne_nil batch hne))

theorem seqsOf_getLast?_some (batch : List (CheckpointDataToCommit Sm Tx Ev Ti Dk Dv Oc Pk Ep))
    (hne : batch ≠ []) : ∃ ls, (seqsOf batch).getLast? = some ls :=
  Option.isSome_iff_exists.mp (List.getLast?_isSome.mpr (seqsOf_ne_nil batch hne))

theorem commit_checkpoints_success [DecidableEq Dk] (store : PersistCall → Bool)
    (batch : List (CheckpointDataToCommit Sm Tx Ev Ti Dk Dv Oc Pk Ep))
    (hne : batch ≠ []) (hstore : ∀ c, store c = true) :
    (commit_checkpoints store batch).watermark_sent = (seqsOf batch).getLast? ∧
    (commit_checkpoints store batch).fatal = false := by
  obtain ⟨fs, hfs⟩ := seqsOf_head?_some batch hne
  obtain ⟨ls, hls⟩ := seqsOf_getLast?_some batch hne
  have hall : phase1Calls.all store = true :=
    List.all_eq_true.mpr fun c _ => hstore c
  rw [commit_checkpoints_eq]
  simp [ctlOf, hfs, hls, commitControl, hall, hstore PersistCall.checkpoints]

theorem commit_checkpoints_no_unwrap_panic [DecidableEq Dk]
    (store : PersistCall → Bool)
    (batch : List (CheckpointDataToCommit Sm Tx Ev Ti Dk Dv Oc Pk Ep))
    (hne : batch ≠ []) :
    (commit_checkpoints store batch).unwrap_panicked = false := by
  obtain ⟨fs, hfs⟩ := seqsOf_head?_some batch hne
  obtain ⟨ls, hls⟩ := seqsOf_getLast?_some batch hne
  rw [commit_checkpoints_eq]
  simp only [ctlOf, hfs, hls, commitControl]
  split_ifs <;> rfl

/-- Claim C1: two-phase commit ordering and atomicity: for every non-empty batch,
`persist_checkpoints` appears in the call trace only when all seven Phase-1
persistence calls succeeded, and then strictly after them; if any one
Phase-1 call fails, `persist_checkpoints` is never invoked, the watermark is
never advanced for the batch, and the commit cycle aborts fatally. -/
theorem two_phase_commit_atomicity [DecidableEq Dk] (store : PersistCall → Bool)
    (batch : List (CheckpointDataToCommit Sm Tx Ev Ti Dk Dv Oc Pk Ep))
    (hne : batch ≠ []) :
    (PersistCall.checkpoints ∈ (commit_checkpoints store batch).trace →
        (∀ c ∈ phase1Calls, store c = true) ∧
        (commit_checkpoints store batch).trace
          = phase1Calls ++ [PersistCall.checkpoints]) ∧
    ((∃ c ∈ phase1Calls, store c = false) →
        PersistCall.checkpoints ∉ (commit_checkpoints store batch).trace ∧
        (commit_checkpoints store batch).watermark_sent = none ∧
        (commit_checkpoints store batch).fatal = true) := by
  obtain ⟨fs, hfs⟩ := seqsOf_head?_some batch hne
  obtain ⟨ls, hls⟩ := seqsOf_getLast?_some batch hne
  rw [commit_checkpoints_eq]
  simp only [ctlOf, hfs, hls, commitControl]
  by_cases hall : phase1Calls.all store = true
  · have hmem : ∀ c ∈ phase1Calls, store c = true := List.all_eq_true.mp hall
    have hnofail : ¬ ∃ c ∈ phase1Calls, store c = false := by
      rintro ⟨c, hc, hcf⟩
      rw [hmem c hc] at hcf
      exact Bool.noConfusion hcf
    by_cases hck : store PersistCall.checkpoints = true
    · rw [if_pos hall, if_pos hck]
      exact ⟨fun _ => ⟨hmem, rfl⟩, fun h => absurd h hnofail⟩
    · rw [if_pos hall, if_neg hck]
      exact ⟨fun _ => ⟨hmem, rfl⟩, fun h => absurd h hnofail⟩
  · have hck : PersistCall.checkpoints ∉ phase1Calls := by decide
    rw [if_neg hall]
    exact ⟨fun h => absurd h hck, fun _ => ⟨hck, rfl, rfl⟩⟩

/-- A concrete `Nat`-instantiated indexed checkpoint for the closed test
cases: sequence number `seq`, transactions `txs`, all other collections
empty. -/
def natCkpt (seq : Nat) (txs : List Nat) :
    CheckpointDataToCommit Nat Nat Nat Nat Nat Nat Nat Nat Nat :=
  { checkpoint := { sequence_number := seq, summary := 0 }
    transactions := txs
    events := []
    tx_indices := []
    display_updates := []
    object_changes := 0
    packages := []
    epoch := none }

/-- A storage oracle for which every persistence call succeeds. -/
def storeOk : PersistCall → Bool := fun _ => true

/-- A storage oracle for which the events persistence call fails and every
other call succeeds. -/
def storeEventsFail : PersistCall → Bool := fun c =>
  match c with
  | PersistCall.events => false
  | _ => true

theorem two_phase_commit_atomicity_witness :
    PersistCall.checkpoints ∉
        (commit_checkpoints storeEventsFail [natCkpt 3 [0]]).trace ∧
    (commit_checkpoints storeEventsFail [natCkpt 3 [0]]).watermark_sent = none ∧
    (commit_checkpoints storeEventsFail [natCkpt 3 [0]]).fatal = true :=
  (two_phase_commit_atomicity storeEventsFail [natCkpt 3 [0]] (by decide)).2
    ⟨PersistCall.events, by decide, rfl⟩

/-- Claim C2 (code bug): the thousand-transaction latency metric at source lines
178-180 divides `elapsed * 1000.0` by `tx_count` unconditionally: on a
successfully committed batch whose total transaction count is 0 the
observation is still made, with denominator 0, rather than being skipped or
guarded. -/
theorem thousand_tx_metric_division_by_zero :
    (commit_checkpoints storeOk [natCkpt 11 []]).tx_count = 0 ∧
    (commit_checkpoints storeOk [natCkpt 11 []]).fatal = false ∧
    (commit_checkpoints storeOk [natCkpt 11 []]).metric1000_observed = true ∧
    (commit_checkpoints storeOk [natCkpt 11 []]).metric1000_denominator = 0 := by
  decide

/-! ### Watermark publication -/

theorem le_getLast?_of_chain'_lt {l : List Nat} {m : Nat}
    (h : List.Chain' (· < ·) l) (hm : l.getLast? = some m) :
    ∀ s ∈ l, s ≤ m := by
  obtain ⟨ys, rfl⟩ := List.getLast?_eq_some_iff.mp hm
  have hp : List.Pairwise (· < ·) (ys ++ [m]) := List.chain'_iff_pairwise.mp h
  intro s hs
  rcases List.mem_append.mp hs with hy | hm'
  · exact le_of_lt ((List.pairwise_append.mp hp).2.2 s hy m (List.mem_singleton_self m))
  · rw [List.mem_singleton.mp hm']

/-- Claim C3: for every non-empty batch whose checkpoint sequence numbers are
strictly increasing, a fully successful commit cycle publishes on the commit
notifier exactly the last element's sequence number, which is the maximum
sequence number in the batch. -/
theorem watermark_publishes_batch_max [DecidableEq Dk]
    (store : PersistCall → Bool)
    (batch : List (CheckpointDataToCommit Sm Tx Ev Ti Dk Dv Oc Pk Ep))
    (hne : batch ≠ []) (hsorted : List.Chain' (· < ·) (seqsOf batch))
    (hstore : ∀ c, store c = true) :
    ∃ m, (commit_checkpoints store batch).watermark_sent = some m ∧
      (seqsOf batch).getLast? = some m ∧ m ∈ seqsOf batch ∧
      ∀ s ∈ seqsOf batch, s ≤ m := by
  obtain ⟨hw, _⟩ := commit_checkpoints_success store batch hne hstore
  obtain ⟨m, hm⟩ := seqsOf_getLast?_some batch hne
  refine ⟨m, ?_, hm, ?_, le_getLast?_of_chain'_lt hsorted hm⟩
  · rw [hw, hm]
  · exact List.mem_of_mem_getLast? (by rw [hm]; exact rfl)

theorem watermark_publishes_batch_max_witness :
    ∃ m, (commit_checkpoints storeOk
            [natCkpt 10 [1, 2], natCkpt 12 [3]]).watermark_sent = some m ∧
      (seqsOf [natCkpt 10 [1, 2], natCkpt 12 [3]]).getLast? = some m ∧
      m ∈ seqsOf [natCkpt 10 [1, 2], natCkpt 12 [3]] ∧
      ∀ s ∈ seqsOf [natCkpt 10 [1, 2], natCkpt 12 [3]], s ≤ m :=
  watermark_publishes_batch_max storeOk [natCkpt 10 [1, 2], natCkpt 12 [3]]
    (by decide) (by simp [seqsOf, natCkpt]) (fun c => rfl)

/-! ### The commit loop -/

theorem persistedCalls_eq_nil_of_no_commit
    (events : List (LoopEvent Sm Tx Ev Ti Dk Dv Oc Pk Ep))
    (h : ∀ b o, LoopEvent.committed b o ∉ events) :
    persistedCalls events = [] := by
  induction events with
  | nil => rfl
  | cons e es ih =>
    have hrest : ∀ b o, LoopEvent.committed b o ∉ es :=
      fun b o hm => h b o (List.mem_cons_of_mem _ hm)
    cases e with
    | committed b o => exact absurd (List.mem_cons_self _ _) (h b o)
    | skipped_empty => simpa [persistedCalls] using ih hrest
    | skipped_db_commit f l => simpa [persistedCalls] using ih hrest

theorem watermarkSends_eq_nil_of_no_commit
    (events : List (LoopEvent Sm Tx Ev Ti Dk Dv Oc Pk Ep))
    (h : ∀ b o, LoopEvent.committed b o ∉ events) :
    watermarkSends events = [] := by
  induction events with
  | nil => rfl
  | cons e es ih =>
    have hrest : ∀ b o, LoopEvent.committed b o ∉ es :=
      fun b o hm => h b o (List.mem_cons_of_mem _ hm)
    cases e with
    | committed b o => exact absurd (List.mem_cons_self _ _) (h b o)
    | skipped_empty => simpa [watermarkSends] using ih hrest
    | skipped_db_commit f l => simpa [watermarkSends] using ih hrest

theorem committedBatches_eq_nil_of_no_commit
    (events : List (LoopEvent Sm Tx Ev Ti Dk Dv Oc Pk Ep))
    (h : ∀ b o, LoopEvent.committed b o ∉ events) :
    committedBatches events = [] := by
  induction events with
  | nil => rfl
  | cons e es ih =>
    have hrest : ∀ b o, LoopEvent.committed b o ∉ es :=
      fun b o hm => h b o (List.mem_cons_of_mem _ hm)
    cases e with
    | committed b o => exact absurd (List.mem_cons_self _ _) (h b o)
    | skipped_empty => simpa [committedBatches] using ih hrest
    | skipped_db_commit f l => simpa [committedBatches] using ih hrest

theorem run_skip_db_commit_eq [DecidableEq Dk] (store : PersistCall → Bool)
    (chunks : List (List (CheckpointDataToCommit Sm Tx Ev Ti Dk Dv Oc Pk Ep))) :
    start_tx_checkpoint_commit_task true store chunks
      = chunks.map fun chunk =>
          if chunk.isEmpty then LoopEvent.skipped_empty
          else LoopEvent.skipped_db_commit
            (chunk.head?.map fun c => c.checkpoint.sequence_number)
            (chunk.getLast?.map fun c => c.checkpoint.sequence_number) := by
  induction chunks with
  | nil => rfl
  | cons chunk rest ih =>
    by_cases hemp : chunk.isEmpty = true <;>
      simp [start_tx_checkpoint_commit_task, hemp, ih]

/-- Claim C7: bypass mode: with the skip-db-commit flag enabled, the commit loop
issues no persistence call, publishes no watermark, and never invokes
`commit_checkpoints`; every non-empty drained chunk is logged (with its
first and last sequence numbers) and discarded. -/
theorem skip_db_commit_bypass [DecidableEq Dk] (store : PersistCall → Bool)
    (chunks : List (List (CheckpointDataToCommit Sm Tx Ev Ti Dk Dv Oc Pk Ep))) :
    persistedCalls (start_tx_checkpoint_commit_task true store chunks) = [] ∧
    watermarkSends (start_tx_checkpoint_commit_task true store chunks) = [] ∧
    committedBatches (start_tx_checkpoint_commit_task true store chunks) = [] ∧
    start_tx_checkpoint_commit_task true store chunks
      = chunks.map fun chunk =>
          if chunk.isEmpty then LoopEvent.skipped_empty
          else LoopEvent.skipped_db_commit
            (chunk.head?.map fun c => c.checkpoint.sequence_number)
            (chunk.getLast?.map fun c => c.checkpoint.sequence_number) := by
  have h := run_skip_db_commit_eq store chunks
  have hnc : ∀ b o, LoopEvent.committed b o ∉
      start_tx_checkpoint_commit_task true store chunks := by
    rw [h]
    intro b o hm
    obtain ⟨chunk, hc, hf⟩ := List.mem_map.mp hm
    by_cases hemp : chunk.isEmpty = true <;> simp [hemp] at hf
  exact ⟨persistedCalls_eq_nil_of_no_commit _ hnc,
    watermarkSends_eq_nil_of_no_commit _ hnc,
    committedBatches_eq_nil_of_no_commit _ hnc, h⟩

/-- Claim C8: empty-batch no-op: an empty drained chunk is skipped without any
persistence call, watermark update, or error, and the loop continues with
the remaining chunks unchanged. -/
theorem empty_chunk_noop [DecidableEq Dk] (skip_db_commit : Bool)
    (store : PersistCall → Bool)
    (rest : List (List (CheckpointDataToCommit Sm Tx Ev Ti Dk Dv Oc Pk Ep))) :
    start_tx_checkpoint_commit_task skip_db_commit store ([] :: rest)
      = LoopEvent.skipped_empty ::
          start_tx_checkpoint_commit_task skip_db_commit store rest ∧
    persistedCalls (start_tx_checkpoint_commit_task skip_db_commit store ([] :: rest))
      = persistedCalls (start_tx_checkpoint_commit_task skip_db_commit store rest) ∧
    watermarkSends (start_tx_checkpoint_commit_task skip_db_commit store ([] :: rest))
      = watermarkSends (start_tx_checkpoint_commit_task skip_db_commit store rest) ∧
    committedBatches (start_tx_checkpoint_commit_task skip_db_commit store ([] :: rest))
      = committedBatches (start_tx_checkpoint_commit_task skip_db_commit store rest) := by
  have h : start_tx_checkpoint_commit_task skip_db_commit store ([] :: rest)
      = LoopEvent.skipped_empty ::
          start_tx_checkpoint_commit_task skip_db_commit store rest := by
    simp [start_tx_checkpoint_commit_task]
  refine ⟨h, ?_, ?_, ?_⟩ <;> rw [h] <;>
    simp [persistedCalls, watermarkSends, committedBatches]

/-- Claim C9: the loop invokes `commit_checkpoints` only on non-empty batches, so
the `first()/last().unwrap()` calls on the accumulated checkpoint batch
inside `commit_checkpoints` never panic during a loop run. -/
theorem commit_invoked_only_on_nonempty [DecidableEq Dk]
    (skip_db_commit : Bool) (store : PersistCall → Bool)
    (chunks : List (List (CheckpointDataToCommit Sm Tx Ev Ti Dk Dv Oc Pk Ep))) :
    ∀ b o, LoopEvent.committed b o ∈
        start_tx_checkpoint_commit_task skip_db_commit store chunks →
      b ≠ [] ∧ o = commit_checkpoints store b ∧ o.unwrap_panicked = false := by
  induction chunks with
  | nil =>
    intro b o h
    simp [start_tx_checkpoint_commit_task] at h
  | cons chunk rest ih =>
    intro b o h
    simp only [start_tx_checkpoint_commit_task] at h
    by_cases hemp : chunk.isEmpty = true
    · rw [if_pos hemp] at h
      rcases List.mem_cons.mp h with h | h
      · cases h
      · exact ih b o h
    · rw [if_neg hemp] at h
      have hne : chunk ≠ [] := fun hc => hemp (by rw [hc]; rfl)
      by_cases hskip : skip_db_commit = true
      · rw [if_pos hskip] at h
        rcases List.mem_cons.mp h with h | h
        · cases h
        · exact ih b o h
      · rw [if_neg hskip] at h
        by_cases hf : (commit_checkpoints store chunk).fatal = true
        · rw [if_pos hf] at h
          have h := List.mem_singleton.mp h
          injection h with h1 h2
          subst h1; subst h2
          exact ⟨hne, rfl, commit_checkpoints_no_unwrap_panic store _ hne⟩
        · rw [if_neg hf] at h
          rcases List.mem_cons.mp h with h | h
          · injection h with h1 h2
            subst h1; subst h2
            exact ⟨hne, rfl, commit_checkpoints_no_unwrap_panic store _ hne⟩
          · exact ih b o h

theorem commit_invoked_only_on_nonempty_witness :
    ([natCkpt 4 [7]] : List (CheckpointDataToCommit Nat Nat Nat Nat Nat Nat Nat Nat Nat)) ≠ [] ∧
    commit_checkpoints storeOk [natCkpt 4 [7]]
      = commit_checkpoints storeOk [natCkpt 4 [7]] ∧
    (commit_checkpoints storeOk [natCkpt 4 [7]]).unwrap_panicked = false :=
  commit_invoked_only_on_nonempty false storeOk [[natCkpt 4 [7]]]
    [natCkpt 4 [7]] (commit_checkpoints storeOk [natCkpt 4 [7]]) (by decide)

/-! ### Watermark monotonicity across commits -/

theorem watermarkSends_cons_committed
    (b : List (CheckpointDataToCommit Sm Tx Ev Ti Dk Dv Oc Pk Ep))
    (o : CommitOutcome Sm Tx Ev Ti Dk Dv Oc Pk Ep)
    (es : List (LoopEvent Sm Tx Ev Ti Dk Dv Oc Pk Ep)) :
    watermarkSends (LoopEvent.committed b o :: es)
      = o.watermark_sent.toList ++ watermarkSends es := by
  cases h : o.watermark_sent <;> simp [watermarkSends, List.filterMap_cons, h]

theorem watermarkSends_cons_skipped_empty
    (es : List (LoopEvent Sm Tx Ev Ti Dk Dv Oc Pk Ep)) :
    watermarkSends (LoopEvent.skipped_empty :: es) = watermarkSends es := by
  simp [watermarkSends, List.filterMap_cons]

theorem run_store_ok_eq [DecidableEq Dk] (store : PersistCall → Bool)
    (hstore : ∀ c, store c = true)
    (chunks : List (List (CheckpointDataToCommit Sm Tx Ev Ti Dk Dv Oc Pk Ep))) :
    start_tx_checkpoint_commit_task false store chunks
      = chunks.map fun chunk =>
          if chunk.isEmpty then LoopEvent.skipped_empty
          else LoopEvent.committed chunk (commit_checkpoints store chunk) := by
  induction chunks with
  | nil => rfl
  | cons chunk rest ih =>
    by_cases hemp : chunk.isEmpty = true
    · simp [start_tx_checkpoint_commit_task, hemp, ih]
    · have hne : chunk ≠ [] := fun hc => hemp (by rw [hc]; rfl)
      have hfatal := (commit_checkpoints_success store chunk hne hstore).2
      simp [start_tx_checkpoint_commit_task, hemp, hfatal, ih]

theorem watermarkSends_store_ok [DecidableEq Dk] (store : PersistCall → Bool)
    (hstore : ∀ c, store c = true)
    (chunks : List (List (CheckpointDataToCommit Sm Tx Ev Ti Dk Dv Oc Pk Ep))) :
    watermarkSends (start_tx_checkpoint_commit_task false store chunks)
      = chunks.filterMap fun chunk => (seqsOf chunk).getLast? := by
  rw [run_store_ok_eq store hstore chunks]
  induction chunks with
  | nil => rfl
  | cons chunk rest ih =>
    by_cases hemp : chunk.isEmpty = true
    · have h0 : chunk = [] := List.isEmpty_iff.mp hemp
      subst h0
      rw [List.map_cons, if_pos hemp, watermarkSends_cons_skipped_empty, ih]
      simp [List.filterMap_cons, seqsOf]
    · have hne : chunk ≠ [] := fun hc => hemp (by rw [hc]; rfl)
      have hw := (commit_checkpoints_success store chunk hne hstore).1
      obtain ⟨m, hm⟩ := seqsOf_getLast?_some chunk hne
      rw [List.map_cons, if_neg hemp, watermarkSends_cons_committed, ih, hw, hm]
      simp [List.filterMap_cons, hm]

theorem seqsOf_append
    (l₁ l₂ : List (CheckpointDataToCommit Sm Tx Ev Ti Dk Dv Oc Pk Ep)) :
    seqsOf (l₁ ++ l₂) = seqsOf l₁ ++ seqsOf l₂ := by
  simp [seqsOf]

theorem sends_sublist_seqs
    (chunks : List (List (CheckpointDataToCommit Sm Tx Ev Ti Dk Dv Oc Pk Ep))) :
    (chunks.filterMap fun chunk => (seqsOf chunk).getLast?).Sublist
      (seqsOf chunks.flatten) := by
  induction chunks with
  | nil => simp
  | cons chunk rest ih =>
    rw [List.flatten_cons, seqsOf_append]
    cases hc : (seqsOf chunk).getLast? with
    | none =>
      have h0 : seqsOf chunk = [] := List.getLast?_eq_none_iff.mp hc
      simp only [List.filterMap_cons, hc, h0, List.nil_append]
      exact ih
    | some m =>
      have hm : m ∈ seqsOf chunk :=
        List.mem_of_mem_getLast? (by rw [hc]; exact rfl)
      simp only [List.filterMap_cons, hc]
      exact (List.singleton_sublist.mpr hm).append ih

theorem sends_length
    (chunks : List (List (CheckpointDataToCommit Sm Tx Ev Ti Dk Dv Oc Pk Ep))) :
    (chunks.filterMap fun chunk => (seqsOf chunk).getLast?).length
      = (chunks.filter fun chunk => !chunk.isEmpty).length := by
  induction chunks with
  | nil => rfl
  | cons chunk rest ih =>
    cases chunk with
    | nil => simpa [List.filterMap_cons, seqsOf, List.filter_cons] using ih
    | cons c t =>
      obtain ⟨m, hm⟩ := seqsOf_getLast?_some (c :: t) (by simp)
      simp [List.filterMap_cons, hm, List.filter_cons, ih]

theorem getLast?_cons_or {α : Type} (a : α) (l : List α) :
    (a :: l).getLast? = l.getLast?.or (some a) := by
  cases l <;> simp [List.getLast?_cons]

theorem sends_getLast?
    (chunks : List (List (CheckpointDataToCommit Sm Tx Ev Ti Dk Dv Oc Pk Ep))) :
    (chunks.filterMap fun chunk => (seqsOf chunk).getLast?).getLast?
      = (seqsOf chunks.flatten).getLast? := by
  induction chunks with
  | nil => rfl
  | cons chunk rest ih =>
    rw [List.flatten_cons, seqsOf_append, List.getLast?_append, ← ih]
    cases hc : (seqsOf chunk).getLast? with
    | none =>
      simp only [List.filterMap_cons, hc, Option.or_none]
    | some m =>
      simp only [List.filterMap_cons, hc, getLast?_cons_or]

/-- Claim C4: monotonic watermark: over a run of the commit loop on chunks drawn
from a stream with strictly increasing sequence numbers, with every
persistence call succeeding, the published watermark values never decrease,
exactly one watermark value is published per (non-empty, successfully
committed) chunk, and the final published value is the last — hence highest
— sequence number of the stream. -/
theorem watermark_monotone_across_commits [DecidableEq Dk]
    (store : PersistCall → Bool)
    (chunks : List (List (CheckpointDataToCommit Sm Tx Ev Ti Dk Dv Oc Pk Ep)))
    (hstore : ∀ c, store c = true)
    (hmono : List.Chain' (· < ·) (seqsOf chunks.flatten)) :
    List.Chain' (· ≤ ·)
      (watermarkSends (start_tx_checkpoint_commit_task false store chunks)) ∧
    (watermarkSends (start_tx_checkpoint_commit_task false store chunks)).length
      = (chunks.filter fun chunk => !chunk.isEmpty).length ∧
    (watermarkSends (start_tx_checkpoint_commit_task false store chunks)).getLast?
      = (seqsOf chunks.flatten).getLast? := by
  rw [watermarkSends_store_ok store hstore chunks]
  refine ⟨?_, sends_length chunks, sends_getLast? chunks⟩
  exact List.Chain'.imp (fun a b => le_of_lt)
    (hmono.sublist (sends_sublist_seqs chunks))

theorem watermark_monotone_across_commits_witness :
    List.Chain' (· ≤ ·)
      (watermarkSends (start_tx_checkpoint_commit_task false storeOk
        [[natCkpt 1 [], natCkpt 2 []], [natCkpt 3 [5]]])) ∧
    (watermarkSends (start_tx_checkpoint_commit_task false storeOk
        [[natCkpt 1 [], natCkpt 2 []], [natCkpt 3 [5]]])).length
      = ([[natCkpt 1 [], natCkpt 2 []], [natCkpt 3 [5]]].filter
          fun chunk => !chunk.isEmpty).length ∧
    (watermarkSends (start_tx_checkpoint_commit_task false storeOk
        [[natCkpt 1 [], natCkpt 2 []], [natCkpt 3 [5]]])).getLast?
      = (seqsOf ([[natCkpt 1 [], natCkpt 2 []], [natCkpt 3 [5]]].flatten)).getLast? :=
  watermark_monotone_across_commits storeOk
    [[natCkpt 1 [], natCkpt 2 []], [natCkpt 3 [5]]]
    (fun c => rfl) (by simp [seqsOf, natCkpt])

/-! ### The transactions-per-checkpoint denominator -/

theorem chain'_lt_add_length_le : ∀ (t : List Nat) (a m : Nat),
    List.Chain' (· < ·) (a :: t) → (a :: t).getLast? = some m →
    a + t.length ≤ m := by
  intro t
  induction t with
  | nil =>
    intro a m _ hm
    have ha : a = m := Option.some.inj hm
    simp only [List.length_nil]
    omega
  | cons b t ih =>
    intro a m hc hm
    rw [List.chain'_cons] at hc
    rw [List.getLast?_cons_cons] at hm
    have hb := ih b m hc.2 hm
    have hab : a < b := hc.1
    simp only [List.length_cons]
    omega

theorem isConsecutive_getLast? : ∀ (t : List Nat) (a : Nat),
    isConsecutive (a :: t) = true → (a :: t).getLast? = some (a + t.length) := by
  intro t
  induction t with
  | nil => intro a _; simp
  | cons b t ih =>
    intro a h
    simp only [isConsecutive, Bool.and_eq_true, beq_iff_eq] at h
    rw [List.getLast?_cons_cons, ih b h.2]
    exact congrArg some (by simp only [List.length_cons]; omega)

theorem isConsecutive_of_getLast? : ∀ (t : List Nat) (a : Nat),
    List.Chain' (· < ·) (a :: t) → (a :: t).getLast? = some (a + t.length) →
    isConsecutive (a :: t) = true := by
  intro t
  induction t with
  | nil => intro a _ _; rfl
  | cons b t ih =>
    intro a hc hm
    rw [List.chain'_cons] at hc
    rw [List.getLast?_cons_cons] at hm
    have hble := chain'_lt_add_length_le t b _ hc.2 hm
    have hab : a < b := hc.1
    have hb : b = a + 1 := by
      simp only [List.length_cons] at hble
      omega
    have hm' : (b :: t).getLast? = some (b + t.length) := by
      rw [hm]
      exact congrArg some (by simp only [List.length_cons]; omega)
    have ht := ih b hc.2 hm'
    subst hb
    simp [isConsecutive, ht]

/-- Claim C10 (amended): the transactions-per-checkpoint metric divides the batch's
total transaction count by the sequence-number span
`last_checkpoint_seq - first_checkpoint_seq + 1`, not by the number of
checkpoint records; for every non-empty batch with non-decreasing sequence
numbers this denominator is at least 1 (so this division is never by zero),
and for batches with strictly increasing sequence numbers it equals the
checkpoint count exactly when the sequence numbers are consecutive with no
gaps. -/
theorem txpc_denominator_is_span [DecidableEq Dk] (store : PersistCall → Bool)
    (batch : List (CheckpointDataToCommit Sm Tx Ev Ti Dk Dv Oc Pk Ep))
    (hne : batch ≠ []) (hmono : List.Chain' (· ≤ ·) (seqsOf batch))
    (hstore : ∀ c, store c = true) :
    ∃ fs ls, (seqsOf batch).head? = some fs ∧ (seqsOf batch).getLast? = some ls ∧
      (commit_checkpoints store batch).txpc_observed = true ∧
      (commit_checkpoints store batch).txpc_denominator = ls - fs + 1 ∧
      1 ≤ (commit_checkpoints store batch).txpc_denominator ∧
      (commit_checkpoints store batch).tx_count
        = ((batch.map fun c => c.transactions).flatten).length ∧
      (List.Chain' (· < ·) (seqsOf batch) →
        ((commit_checkpoints store batch).txpc_denominator = batch.length ↔
          isConsecutive (seqsOf batch) = true)) := by
  obtain ⟨fs, hfs⟩ := seqsOf_head?_some batch hne
  obtain ⟨ls, hls⟩ := seqsOf_getLast?_some batch hne
  have hall : phase1Calls.all store = true :=
    List.all_eq_true.mpr fun c _ => hstore c
  have hck := hstore PersistCall.checkpoints
  have hobs : (commit_checkpoints store batch).txpc_observed = true := by
    rw [commit_checkpoints_eq]
    show (ctlOf store batch).txpc_observed = true
    simp [ctlOf, hfs, hls, commitControl, hall, hck]
  have hden : (commit_checkpoints store batch).txpc_denominator = ls - fs + 1 := by
    rw [commit_checkpoints_eq]
    show (ctlOf store batch).txpc_denominator = ls - fs + 1
    simp only [ctlOf, hfs, hls, commitControl]
    split_ifs <;> rfl
  have htx : (commit_checkpoints store batch).tx_count
      = ((batch.map fun c => c.transactions).flatten).length := by
    rw [commit_checkpoints_eq]
  refine ⟨fs, ls, hfs, hls, hobs, hden, by omega, htx, ?_⟩
  intro hlt
  rw [hden]
  obtain ⟨t, hseq⟩ : ∃ t, seqsOf batch = fs :: t := by
    cases hs : seqsOf batch with
    | nil => rw [hs] at hfs; cases hfs
    | cons x t =>
      rw [hs] at hfs
      simp only [List.head?_cons, Option.some_inj] at hfs
      exact ⟨t, by rw [hfs]⟩
  have hlen : batch.length = t.length + 1 := by
    have hl : (seqsOf batch).length = batch.length := by simp [seqsOf]
    rw [hseq] at hl
    simpa using hl.symm
  rw [hseq] at hls hlt
  have hfsle : fs + t.length ≤ ls := chain'_lt_add_length_le t fs ls hlt hls
  constructor
  · intro hspan
    rw [hlen] at hspan
    have hls' : ls = fs + t.length := by omega
    rw [hseq]
    exact isConsecutive_of_getLast? t fs hlt (by rw [hls, hls'])
  · intro hcons
    rw [hseq] at hcons
    have hgl := isConsecutive_getLast? t fs hcons
    rw [hgl] at hls
    have : fs + t.length = ls := by
      simpa using hls
    omega

theorem txpc_denominator_is_span_witness :
    ∃ fs ls,
      (seqsOf [natCkpt 5 [1], natCkpt 6 [], natCkpt 7 [2, 3]]).head? = some fs ∧
      (seqsOf [natCkpt 5 [1], natCkpt 6 [], natCkpt 7 [2, 3]]).getLast? = some ls ∧
      (commit_checkpoints storeOk
        [natCkpt 5 [1], natCkpt 6 [], natCkpt 7 [2, 3]]).txpc_observed = true ∧
      (commit_checkpoints storeOk
        [natCkpt 5 [1], natCkpt 6 [], natCkpt 7 [2, 3]]).txpc_denominator = ls - fs + 1 ∧
      1 ≤ (commit_checkpoints storeOk
        [natCkpt 5 [1], natCkpt 6 [], natCkpt 7 [2, 3]]).txpc_denominator ∧
      (commit_checkpoints storeOk
          [natCkpt 5 [1], natCkpt 6 [], natCkpt 7 [2, 3]]).tx_count
        = (([natCkpt 5 [1], natCkpt 6 [], natCkpt 7 [2, 3]].map
            fun c => c.transactions).flatten).length ∧
      (List.Chain' (· < ·) (seqsOf [natCkpt 5 [1], natCkpt 6 [], natCkpt 7 [2, 3]]) →
        ((commit_checkpoints storeOk
            [natCkpt 5 [1], natCkpt 6 [], natCkpt 7 [2, 3]]).txpc_denominator
          = ([natCkpt 5 [1], natCkpt 6 [], natCkpt 7 [2, 3]] :
              List (CheckpointDataToCommit Nat Nat Nat Nat Nat Nat Nat Nat Nat)).length ↔
          isConsecutive (seqsOf [natCkpt 5 [1], natCkpt 6 [], natCkpt 7 [2, 3]]) = true)) :=
  txpc_denominator_is_span storeOk [natCkpt 5 [1], natCkpt 6 [], natCkpt 7 [2, 3]]
    (by decide) (by simp [seqsOf, natCkpt]) (fun c => rfl)

/-- Claim C10 counterexample to the original claim: the batch with sequence numbers
5, 5, 7 is non-empty with non-decreasing sequence numbers, and its span
denominator `7 - 5 + 1 = 3` equals the checkpoint count 3, yet the sequence
numbers are not consecutive — so "equals the checkpoint count exactly when
the sequence numbers are consecutive with no gaps" fails as stated for
non-decreasing batches. -/
theorem txpc_denominator_count_gap_coincidence :
    ([natCkpt 5 [], natCkpt 5 [], natCkpt 7 []] :
        List (CheckpointDataToCommit Nat Nat Nat Nat Nat Nat Nat Nat Nat)) ≠ [] ∧
    List.Chain' (· ≤ ·) (seqsOf [natCkpt 5 [], natCkpt 5 [], natCkpt 7 []]) ∧
    (commit_checkpoints storeOk
        [natCkpt 5 [], natCkpt 5 [], natCkpt 7 []]).txpc_denominator
      = ([natCkpt 5 [], natCkpt 5 [], natCkpt 7 []] :
          List (CheckpointDataToCommit Nat Nat Nat Nat Nat Nat Nat Nat Nat)).length ∧
    isConsecutive (seqsOf [natCkpt 5 [], natCkpt 5 [], natCkpt 7 []]) = false :=
  ⟨by decide, by simp [seqsOf, natCkpt], by decide, by decide⟩

end Committer
